import Mathlib

/-!
# gbiclog: command handlers over the storage gateway

A shallow embedding of the five command handlers of `gbiclog.go`
(`cmdInit`, `cmdTypeAdd`, `cmdTypeList`, `cmdTypeEdit`, `cmdTypeDelete`).

* A handler is a function from a world (the store plus the log of what
  happened so far) to a world.  The log records every call made on the
  storage handle, with its arguments, and every text written to stdout or
  stderr, in program order.
* The packages `lib/sqlitedb` and `lib/bicycleTypes` are not part of the
  source file.  The handlers take them as parameters (`Gateway`, `Lib`), so a
  theorem about a handler holds for every implementation of them.  A
  reference implementation following the design document is given as
  `sqlitedb` / `bicycleTypes` and used where a statement speaks about the
  stored rows themselves.
-/

namespace Gbiclog

/-! ## Constants of `gbiclog.go` -/

def errMissingFileFlag : String :=
  "gBicLog: missing information about data file. Specify it with --file or -f flag.\n"

def errMissingNameFlag : String :=
  "gBicLog: missing name. Specify it with --name or -n flag.\n"

def errMissingIdFlag : String :=
  "gBicLog: missing id. Specify it with --id or -i flag.\n"

def fsSeparator : String := "  "

/-! ## Data model -/

/-- The record `bicycleTypes.BicycleType`, built positionally in the source
as `BicycleType{0, name}` and read through `.Id` and `.Name`. -/
structure BicycleType where
  Id : Int
  Name : String
  deriving DecidableEq, Repr

/-- The collection `bicycleTypes.BicycleTypes`; the handlers take its `len`
and range over it. -/
abbrev BicycleTypes := List BicycleType

/-- A Go `error` value as the handlers use it: `nil`, or a message that is
printed with the verb `%s`. -/
abbrev Error := Option String

/-- An operand of `fmt.Fprintf`. -/
inductive Arg where
  | int (i : Int)
  | str (s : String)
  deriving DecidableEq, Repr

/-- A call on the storage handle, with its arguments.  The handle is made by
`sqlitedb.New(path)` right before `CreateNew` / `Open`, so the path is
recorded with these two calls. -/
inductive Call where
  | CreateNew (path : String)
  | Open (path : String)
  | Close
  | TypeAdd (bt : BicycleType)
  | TypeList
  | TypeUpdate (bt : BicycleType)
  | TypeDelete (bt : BicycleType)
  deriving DecidableEq, Repr

/-- The two output streams. -/
inductive Stream where
  | Stdout
  | Stderr
  deriving DecidableEq, Repr

/-- One observable step of a handler. -/
inductive Event where
  | call (c : Call)
  | write (w : Stream) (text : String)
  deriving DecidableEq, Repr

/-- The methods of the storage handle (`lib/sqlitedb`), as state
transformers on the store `σ`.  `TypeList` returns both the list and the
error, as in Go. -/
structure Gateway (σ : Type) where
  CreateNew : String → σ → Error × σ
  Open : String → σ → Error × σ
  Close : σ → σ
  TypeAdd : BicycleType → σ → Error × σ
  TypeList : σ → (BicycleTypes × Error) × σ
  TypeUpdate : BicycleType → σ → Error × σ
  TypeDelete : BicycleType → σ → Error × σ

/-- The pure helpers used by the handlers: the two methods of
`bicycleTypes.BicycleTypes` and the formatter of package `fmt`, applied to
the format strings that `GetDisplayStrings` hands back. -/
structure Lib where
  GetWithId : BicycleTypes → Int → Except String BicycleType
  GetDisplayStrings : BicycleTypes → String × String × String × String
  Sprintf : String → List Arg → String

/-- The flags a handler reads from `cli.Context`: `c.String("file")`,
`c.String("name")`, `c.Int("id")`, `c.Bool("verbose")`. -/
structure Context where
  file : String
  name : String
  id : Int
  verbose : Bool
  deriving DecidableEq, Repr

/-- The store together with the log of events so far. -/
structure World (σ : Type) where
  store : σ
  log : List Event

namespace World

variable {σ : Type}

/-- Writing `text` to a stream (`fmt.Fprint` / `fmt.Fprintf` after
formatting). -/
def write (w : World σ) (f : Stream) (text : String) : World σ :=
  { w with log := w.log ++ [Event.write f text] }

/-- The statement `fmt.Fprintf(os.Stderr, "%s", err)` under `if err != nil`. -/
def report (w : World σ) (err : Error) : World σ :=
  match err with
  | some e => w.write Stream.Stderr e
  | none => w

def CreateNew (G : Gateway σ) (path : String) (w : World σ) : Error × World σ :=
  ((G.CreateNew path w.store).1,
    { store := (G.CreateNew path w.store).2, log := w.log ++ [Event.call (Call.CreateNew path)] })

def Open (G : Gateway σ) (path : String) (w : World σ) : Error × World σ :=
  ((G.Open path w.store).1,
    { store := (G.Open path w.store).2, log := w.log ++ [Event.call (Call.Open path)] })

def Close (G : Gateway σ) (w : World σ) : World σ :=
  { store := G.Close w.store, log := w.log ++ [Event.call Call.Close] }

def TypeAdd (G : Gateway σ) (bt : BicycleType) (w : World σ) : Error × World σ :=
  ((G.TypeAdd bt w.store).1,
    { store := (G.TypeAdd bt w.store).2, log := w.log ++ [Event.call (Call.TypeAdd bt)] })

def TypeList (G : Gateway σ) (w : World σ) : (BicycleTypes × Error) × World σ :=
  ((G.TypeList w.store).1,
    { store := (G.TypeList w.store).2, log := w.log ++ [Event.call Call.TypeList] })

def TypeUpdate (G : Gateway σ) (bt : BicycleType) (w : World σ) : Error × World σ :=
  ((G.TypeUpdate bt w.store).1,
    { store := (G.TypeUpdate bt w.store).2, log := w.log ++ [Event.call (Call.TypeUpdate bt)] })

def TypeDelete (G : Gateway σ) (bt : BicycleType) (w : World σ) : Error × World σ :=
  ((G.TypeDelete bt w.store).1,
    { store := (G.TypeDelete bt w.store).2, log := w.log ++ [Event.call (Call.TypeDelete bt)] })

end World

/-! ## The handlers -/

section Handlers

variable {σ : Type}

/-- Handler `cmdInit` (gbiclog.go 204-222).  There is no `return` after the
error of `CreateNew` is printed, and no call of `Close`. -/
def cmdInit (G : Gateway σ) (c : Context) (w : World σ) : World σ :=
  if c.file = "" then
    w.write Stream.Stderr errMissingFileFlag
  else
    let r := w.CreateNew G c.file
    let w := r.2.report r.1
    if c.verbose = true then
      w.write Stream.Stdout ("gBicLog: created file " ++ c.file ++ ".\n")
    else w

/-- Handler `cmdTypeAdd` (gbiclog.go 224-257).  `defer f.Close()` is registered
after the successful `Open`, so `Close` runs on every return below it. -/
def cmdTypeAdd (G : Gateway σ) (c : Context) (w : World σ) : World σ :=
  if c.file = "" then
    w.write Stream.Stderr errMissingFileFlag
  else if c.name = "" then
    w.write Stream.Stderr errMissingNameFlag
  else
    let r := w.Open G c.file
    match r.1 with
    | some e => r.2.write Stream.Stderr e
    | none =>
      World.Close G <|
        let nt : BicycleType := ⟨0, c.name⟩
        let a := r.2.TypeAdd G nt
        match a.1 with
        | some e => a.2.write Stream.Stderr e
        | none =>
          if c.verbose = true then
            a.2.write Stream.Stdout ("gBicLog: added new bicycle type: " ++ nt.Name ++ ".\n")
          else a.2

/-- Handler `cmdTypeList` (gbiclog.go 259-289).  The error of `Open` and the error
of `TypeList` are printed and execution goes on. -/
def cmdTypeList (G : Gateway σ) (L : Lib) (c : Context) (w : World σ) : World σ :=
  if c.file = "" then
    w.write Stream.Stderr errMissingFileFlag
  else
    let r := w.Open G c.file
    let w := r.2.report r.1
    World.Close G <|
      let t := w.TypeList G
      let types := t.1.1
      let w := t.2.report t.1.2
      if types.length = 0 then
        w.write Stream.Stdout "gBicLog: no bicycle types."
      else
        let d := L.GetDisplayStrings types
        let w := w.write Stream.Stdout
          (L.Sprintf (fsSeparator.intercalate [d.1, d.2.1, "\n"]) [])
        let l := fsSeparator.intercalate [d.2.2.1, d.2.2.2, "\n"]
        types.foldl
          (fun w t => w.write Stream.Stdout (L.Sprintf l [Arg.int t.Id, Arg.str t.Name])) w

/-- Handler `cmdTypeEdit` (gbiclog.go 291-340).  The error of `Open` is
printed and execution goes on; `defer f.Close()` is registered right after. -/
def cmdTypeEdit (G : Gateway σ) (L : Lib) (c : Context) (w : World σ) : World σ :=
  if c.file = "" then
    w.write Stream.Stderr errMissingFileFlag
  else
    let id := c.id
    if id < 0 then
      w.write Stream.Stderr errMissingIdFlag
    else
      let newName := c.name
      if newName = "" then
        w.write Stream.Stderr errMissingNameFlag
      else
        let r := w.Open G c.file
        let w := r.2.report r.1
        World.Close G <|
          let t := w.TypeList G
          match t.1.2 with
          | some e => t.2.write Stream.Stderr e
          | none =>
            match L.GetWithId t.1.1 id with
            | Except.error e => t.2.write Stream.Stderr e
            | Except.ok bt =>
              let oldName := bt.Name
              let bt : BicycleType := { bt with Name := newName }
              let u := t.2.TypeUpdate G bt
              match u.1 with
              | some e => u.2.write Stream.Stderr e
              | none =>
                if c.verbose = true then
                  u.2.write Stream.Stdout
                    ("gBicLog: change bicycle type name from " ++ oldName ++ " to "
                      ++ newName ++ ".\n")
                else u.2

/-- Handler `cmdTypeDelete` (gbiclog.go 342-384).  The error of `Open` is
printed and execution goes on; `defer f.Close()` is registered right after. -/
def cmdTypeDelete (G : Gateway σ) (L : Lib) (c : Context) (w : World σ) : World σ :=
  if c.file = "" then
    w.write Stream.Stderr errMissingFileFlag
  else
    let id := c.id
    if id < 0 then
      w.write Stream.Stderr errMissingIdFlag
    else
      let r := w.Open G c.file
      let w := r.2.report r.1
      World.Close G <|
        let t := w.TypeList G
        match t.1.2 with
        | some e => t.2.write Stream.Stderr e
        | none =>
          match L.GetWithId t.1.1 id with
          | Except.error e => t.2.write Stream.Stderr e
          | Except.ok bt =>
            let u := t.2.TypeDelete G bt
            match u.1 with
            | some e => u.2.write Stream.Stderr e
            | none =>
              if c.verbose = true then
                u.2.write Stream.Stdout ("gBicLog: deleted bicycle type " ++ bt.Name ++ ".\n")
              else u.2

end Handlers

/-! ## Observations on a log -/

/-- The calls made on the storage handle, in order. -/
def callsOf (es : List Event) : List Call :=
  es.filterMap fun e => match e with
    | Event.call c => some c
    | Event.write _ _ => none

/-- The texts written to stdout, in order. -/
def stdoutOf (es : List Event) : List String :=
  es.filterMap fun e => match e with
    | Event.write Stream.Stdout t => some t
    | _ => none

/-- The texts written to stderr, in order. -/
def stderrOf (es : List Event) : List String :=
  es.filterMap fun e => match e with
    | Event.write Stream.Stderr t => some t
    | _ => none

/-- A fresh world: the store and an empty log. -/
def start {σ : Type} (s : σ) : World σ := ⟨s, []⟩

/-- The calls that can change stored rows. -/
def Call.mutating : Call → Bool
  | Call.CreateNew _ => true
  | Call.TypeAdd _ => true
  | Call.TypeUpdate _ => true
  | Call.TypeDelete _ => true
  | _ => false

/-- The message a non-nil error puts on stderr (none for `nil`). -/
def Error.messages : Error → List String
  | some e => [e]
  | none => []

/-! ## Reference implementation of the two library packages -/

/-- Modelled from the spec: the table of bicycle types of one data file
(`lib/sqlitedb` is not in the source).  Columns
`(id integer primary key autoincrement, name text not null)`; `seq` is the
largest id ever assigned by the autoincrement counter. -/
structure Table where
  rows : List BicycleType
  seq : Int
  deriving DecidableEq, Repr

/-- Modelled from the spec: what can be found at a path (`lib/sqlitedb` is
not in the source): a file without the expected schema, or a data file. -/
inductive File where
  | foreign
  | db (t : Table)
  deriving DecidableEq, Repr

/-- Modelled from the spec: the store seen by the gateway (`lib/sqlitedb` is
not in the source): the files by path, and the path of the live handle if
one is open. -/
structure Disk where
  files : String → Option File
  handle : Option String

namespace Disk

/-- Modelled from the spec: replacing the file at `path` (`lib/sqlitedb` is
not in the source). -/
def setFile (files : String → Option File) (path : String) (f : File) :
    String → Option File :=
  fun p => if p = path then some f else files p

/-- Modelled from the spec: the table behind the live handle, with its path
(`lib/sqlitedb` is not in the source). -/
def live (d : Disk) : Option (String × Table) :=
  match d.handle with
  | none => none
  | some path =>
    match d.files path with
    | some (File.db t) => some (path, t)
    | _ => none

end Disk

/-- Modelled from the spec: the id the autoincrement column gives to the
next row (`lib/sqlitedb` is not in the source): one more than the largest id
ever assigned and than every id present. -/
def Table.nextId (t : Table) : Int :=
  (t.rows.foldl (fun m r => max m r.Id) t.seq) + 1

/-- Modelled from the spec: rows ordered by id ascending (`lib/sqlitedb` is
not in the source). -/
def Table.ordered (t : Table) : List BicycleType :=
  t.rows.insertionSort (fun a b => a.Id ≤ b.Id)

namespace sqlitedb

/-- Modelled from the spec: `CreateNew(path)` of `lib/sqlitedb` (not in the
source), on the fresh handle made by `New(path)`: fails with `AlreadyExists`
if a file exists at `path`, otherwise creates the file with the empty
schema.  The handle is not made live. -/
def CreateNew (path : String) (d : Disk) : Error × Disk :=
  match d.files path with
  | some _ => (some "AlreadyExists", { d with handle := none })
  | none =>
    (none, { files := Disk.setFile d.files path (File.db ⟨[], 0⟩), handle := none })

/-- Modelled from the spec: `Open(path)` of `lib/sqlitedb` (not in the
source), on the fresh handle made by `New(path)`: `NotFound` if the file is
absent, `InvalidFormat` if it has not the expected schema, otherwise the
handle is live. -/
def Open (path : String) (d : Disk) : Error × Disk :=
  match d.files path with
  | none => (some "NotFound", { d with handle := none })
  | some File.foreign => (some "InvalidFormat", { d with handle := none })
  | some (File.db _) => (none, { d with handle := some path })

/-- Modelled from the spec: `Close()` of `lib/sqlitedb` (not in the source):
releases the handle; idempotent. -/
def Close (d : Disk) : Disk := { d with handle := none }

/-- Modelled from the spec: `TypeAdd` of `lib/sqlitedb` (not in the source):
`ValidationError` if the name is empty, `StorageError` without a live
handle, otherwise inserts a row with an auto-generated id.  The id of the
record passed in is not used. -/
def TypeAdd (bt : BicycleType) (d : Disk) : Error × Disk :=
  if bt.Name = "" then (some "ValidationError", d)
  else
    match d.live with
    | none => (some "StorageError", d)
    | some (path, t) =>
      let t1 : Table := ⟨t.rows ++ [⟨t.nextId, bt.Name⟩], t.nextId⟩
      (none, { d with files := Disk.setFile d.files path (File.db t1) })

/-- Modelled from the spec: `TypeList()` of `lib/sqlitedb` (not in the
source): all records ordered by id ascending, an empty collection when there
are none; `StorageError` without a live handle. -/
def TypeList (d : Disk) : (BicycleTypes × Error) × Disk :=
  match d.live with
  | none => (([], some "StorageError"), d)
  | some (_, t) => ((t.ordered, none), d)

/-- Modelled from the spec: `TypeUpdate(record)` of `lib/sqlitedb` (not in
the source): rewrites the name of the row matching `record.id`; `NotFound`
if no row has that id. -/
def TypeUpdate (bt : BicycleType) (d : Disk) : Error × Disk :=
  match d.live with
  | none => (some "StorageError", d)
  | some (path, t) =>
    if t.rows.any (fun r => r.Id = bt.Id) then
      let t1 : Table :=
        { t with rows := t.rows.map fun r => if r.Id = bt.Id then { r with Name := bt.Name } else r }
      (none, { d with files := Disk.setFile d.files path (File.db t1) })
    else (some "NotFound", d)

/-- Modelled from the spec: `TypeDelete(record)` of `lib/sqlitedb` (not in
the source): removes the row matching `record.id`; `NotFound` if absent. -/
def TypeDelete (bt : BicycleType) (d : Disk) : Error × Disk :=
  match d.live with
  | none => (some "StorageError", d)
  | some (path, t) =>
    if t.rows.any (fun r => r.Id = bt.Id) then
      let t1 : Table := { t with rows := t.rows.filter fun r => r.Id ≠ bt.Id }
      (none, { d with files := Disk.setFile d.files path (File.db t1) })
    else (some "NotFound", d)

/-- Modelled from the spec: the storage gateway of `lib/sqlitedb` (not in
the source). -/
def gateway : Gateway Disk where
  CreateNew := CreateNew
  Open := Open
  Close := Close
  TypeAdd := TypeAdd
  TypeList := TypeList
  TypeUpdate := TypeUpdate
  TypeDelete := TypeDelete

end sqlitedb

namespace bicycleTypes

/-- Modelled from the spec: `GetWithId(id)` of `lib/bicycleTypes` (not in
the source): linear scan; `NotFound` if no element matches, otherwise the
matching record. -/
def GetWithId (l : BicycleTypes) (id : Int) : Except String BicycleType :=
  match l.find? (fun r => r.Id = id) with
  | some r => Except.ok r
  | none => Except.error "NotFound"

/-- A plain rendering of one operand. -/
def showArg : Arg → String
  | Arg.int i => toString i
  | Arg.str s => s

/-- A plain stand-in for the formatter: the text of the format, then the
operands.  The theorems hold for every formatter; this one only serves to
run the handlers on concrete inputs. -/
def Sprintf (format : String) (args : List Arg) : String :=
  args.foldl (fun acc a => acc ++ " " ++ showArg a) format

/-- A plain stand-in for `GetDisplayStrings`: fixed headers and templates.
The theorems hold for every choice; this one only serves to run the handlers
on concrete inputs. -/
def GetDisplayStrings (_ : BicycleTypes) : String × String × String × String :=
  ("ID", "NAME", "id", "name")

/-- The helpers, with `GetWithId` as the design document describes it. -/
def lib : Lib where
  GetWithId := GetWithId
  GetDisplayStrings := GetDisplayStrings
  Sprintf := Sprintf

end bicycleTypes

/-! ## Sample stores -/

/-- The rows with id `i` in the data file at `path` (none if there is no
data file there). -/
def Disk.rowsWithId (d : Disk) (i : Int) (path : String) : List BicycleType :=
  match d.files path with
  | some (File.db t) => t.rows.filter fun r => r.Id = i
  | _ => []

/-- A data file `bikes.db` holding `Road` (id 1) and `MTB` (id 2), and a
file `notes.txt` that is not a data file. -/
def sampleDisk : Disk where
  files := fun p =>
    if p = "bikes.db" then some (File.db ⟨[⟨1, "Road"⟩, ⟨2, "MTB"⟩], 2⟩)
    else if p = "notes.txt" then some File.foreign
    else none
  handle := none

/-! ## Relating two runs -/

/-- Two runs made the same calls with the same arguments, ended in the same
store and wrote the same text to stderr; on stdout the first wrote what the
second wrote, and at most one more line after it. -/
def SameButSummary {σ : Type} (a b : World σ) : Prop :=
  callsOf a.log = callsOf b.log ∧ a.store = b.store
  ∧ stderrOf a.log = stderrOf b.log
  ∧ (stdoutOf a.log = stdoutOf b.log ∨ ∃ line, stdoutOf a.log = stdoutOf b.log ++ [line])

/-- In a list of calls: the first call is `Open` with the given path, the
last one is `Close`, and `Close` occurs exactly once. -/
def ClosedOnceAfterOpen (file : String) (calls : List Call) : Prop :=
  calls.head? = some (Call.Open file) ∧ calls.getLast? = some Call.Close
  ∧ calls.count Call.Close = 1

/-- What `cmdTypeList` writes to stdout for the list `l` (gbiclog.go
279-288): the message for an empty list, or the header and one row per
record. -/
def listing (L : Lib) (l : BicycleTypes) : List String :=
  if l = [] then ["gBicLog: no bicycle types."]
  else
    L.Sprintf ((L.GetDisplayStrings l).1 ++ fsSeparator ++ (L.GetDisplayStrings l).2.1
        ++ fsSeparator ++ "\n") []
      :: l.map fun t =>
          L.Sprintf ((L.GetDisplayStrings l).2.2.1 ++ fsSeparator
              ++ (L.GetDisplayStrings l).2.2.2 ++ fsSeparator ++ "\n")
            [Arg.int t.Id, Arg.str t.Name]

/-! ## Basic facts about logs -/

@[simp]
theorem callsOf_nil : callsOf [] = [] := rfl
@[simp]
theorem stdoutOf_nil : stdoutOf [] = [] := rfl
@[simp]
theorem stderrOf_nil : stderrOf [] = [] := rfl

@[simp]
theorem callsOf_append (a b : List Event) :
    callsOf (a ++ b) = callsOf a ++ callsOf b := by
  simp [callsOf]

@[simp]
theorem stdoutOf_append (a b : List Event) :
    stdoutOf (a ++ b) = stdoutOf a ++ stdoutOf b := by
  simp [stdoutOf]

@[simp]
theorem stderrOf_append (a b : List Event) :
    stderrOf (a ++ b) = stderrOf a ++ stderrOf b := by
  simp [stderrOf]

@[simp]
theorem callsOf_cons_call (c : Call) (es : List Event) :
    callsOf (Event.call c :: es) = c :: callsOf es := rfl

@[simp]
theorem callsOf_cons_write (f : Stream) (t : String) (es : List Event) :
    callsOf (Event.write f t :: es) = callsOf es := rfl

@[simp]
theorem stdoutOf_cons_call (c : Call) (es : List Event) :
    stdoutOf (Event.call c :: es) = stdoutOf es := rfl

@[simp]
theorem stderrOf_cons_call (c : Call) (es : List Event) :
    stderrOf (Event.call c :: es) = stderrOf es := rfl

@[simp]
theorem stdoutOf_cons_out (t : String) (es : List Event) :
    stdoutOf (Event.write Stream.Stdout t :: es) = t :: stdoutOf es := rfl

@[simp]
theorem stdoutOf_cons_err (t : String) (es : List Event) :
    stdoutOf (Event.write Stream.Stderr t :: es) = stdoutOf es := rfl

@[simp]
theorem stderrOf_cons_err (t : String) (es : List Event) :
    stderrOf (Event.write Stream.Stderr t :: es) = t :: stderrOf es := rfl

@[simp]
theorem stderrOf_cons_out (t : String) (es : List Event) :
    stderrOf (Event.write Stream.Stdout t :: es) = stderrOf es := rfl

@[simp]
theorem callsOf_map_write (f : Stream) (ts : List String) :
    callsOf (ts.map (Event.write f)) = [] := by
  induction ts with
  | nil => rfl
  | cons t ts ih => simpa using ih

@[simp]
theorem stderrOf_map_err (ts : List String) :
    stderrOf (ts.map (Event.write Stream.Stderr)) = ts := by
  induction ts with
  | nil => rfl
  | cons t ts ih => simpa using ih

@[simp]
theorem stdoutOf_map_err (ts : List String) :
    stdoutOf (ts.map (Event.write Stream.Stderr)) = [] := by
  induction ts with
  | nil => rfl
  | cons t ts ih => simpa using ih

@[simp]
theorem stdoutOf_map_out (ts : List String) :
    stdoutOf (ts.map (Event.write Stream.Stdout)) = ts := by
  induction ts with
  | nil => rfl
  | cons t ts ih => simpa using ih

@[simp]
theorem stdoutOf_map_out_comp {α : Type} (f : α → String) (l : List α) :
    stdoutOf (l.map (Event.write Stream.Stdout ∘ f)) = l.map f := by
  rw [← List.map_map, stdoutOf_map_out]

@[simp]
theorem stderrOf_map_out_comp {α : Type} (f : α → String) (l : List α) :
    stderrOf (l.map (Event.write Stream.Stdout ∘ f)) = [] := by
  induction l with
  | nil => rfl
  | cons t ts ih => simpa using ih

@[simp]
theorem callsOf_map_write_comp {α : Type} (w : Stream) (f : α → String) (l : List α) :
    callsOf (l.map (Event.write w ∘ f)) = [] := by
  rw [← List.map_map, callsOf_map_write]

@[simp]
theorem stderrOf_map_out (ts : List String) :
    stderrOf (ts.map (Event.write Stream.Stdout)) = [] := by
  induction ts with
  | nil => rfl
  | cons t ts ih => simpa using ih

@[simp]
theorem write_store {σ : Type} (w : World σ) (f : Stream) (t : String) :
    (w.write f t).store = w.store := rfl
@[simp]
theorem write_log {σ : Type} (w : World σ) (f : Stream) (t : String) :
    (w.write f t).log = w.log ++ [Event.write f t] := rfl
@[simp]
theorem report_store {σ : Type} (w : World σ) (e : Error) :
    (w.report e).store = w.store := by
  cases e <;> rfl
@[simp]
theorem report_log {σ : Type} (w : World σ) (e : Error) :
    (w.report e).log = w.log ++ (Error.messages e).map (Event.write Stream.Stderr) := by
  cases e <;> simp [World.report, Error.messages]

theorem join3 (a b : String) :
    fsSeparator.intercalate [a, b, "\n"] = a ++ "  " ++ b ++ "  " ++ "\n" := by
  simp [String.intercalate, String.intercalate.go, fsSeparator]

theorem foldl_write {σ : Type} (f : BicycleType → String) (l : List BicycleType)
    (w : World σ) :
    l.foldl (fun w t => w.write Stream.Stdout (f t)) w
      = ⟨w.store, w.log ++ l.map (fun t => Event.write Stream.Stdout (f t))⟩ := by
  induction l generalizing w with
  | nil => simp
  | cons t l ih =>
    rw [List.foldl_cons, ih]
    simp [World.write]

/-- The whole run of `cmdTypeList` once the path is accepted. -/
theorem cmdTypeList_run {σ : Type} (G : Gateway σ) (L : Lib) (c : Context) (s : σ)
    (hf : c.file ≠ "") :
    cmdTypeList G L c (start s)
      = ⟨G.Close (G.TypeList (G.Open c.file s).2).2,
          Event.call (Call.Open c.file)
            :: ((Error.messages (G.Open c.file s).1).map (Event.write Stream.Stderr)
            ++ Event.call Call.TypeList
            :: ((Error.messages (G.TypeList (G.Open c.file s).2).1.2).map
                  (Event.write Stream.Stderr)
            ++ ((if (G.TypeList (G.Open c.file s).2).1.1 = [] then
                  ["gBicLog: no bicycle types."]
                else
                  L.Sprintf
                      ((L.GetDisplayStrings (G.TypeList (G.Open c.file s).2).1.1).1 ++ "  "
                        ++ (L.GetDisplayStrings (G.TypeList (G.Open c.file s).2).1.1).2.1
                        ++ "  " ++ "\n") []
                    :: (G.TypeList (G.Open c.file s).2).1.1.map fun t =>
                        L.Sprintf
                          ((L.GetDisplayStrings (G.TypeList (G.Open c.file s).2).1.1).2.2.1
                            ++ "  "
                            ++ (L.GetDisplayStrings (G.TypeList (G.Open c.file s).2).1.1).2.2.2
                            ++ "  " ++ "\n")
                          [Arg.int t.Id, Arg.str t.Name]).map (Event.write Stream.Stdout)
            ++ [Event.call Call.Close])))⟩ := by
  by_cases hl : (G.TypeList (G.Open c.file s).2).1.1 = []
  · simp [cmdTypeList, hf, World.Open, World.TypeList, World.Close, start, hl]
  · simp only [cmdTypeList, hf, World.Open, World.TypeList, start, hl, if_false,
      foldl_write, join3, List.length_eq_zero]
    simp [World.Close, World.write, Function.comp_def, hl]

/-! ## Facts about the reference gateway -/

theorem sqlitedb_Open_files (p : String) (d : Disk) :
    (sqlitedb.gateway.Open p d).2.files = d.files := by
  simp only [sqlitedb.gateway, sqlitedb.Open]
  split <;> rfl

theorem sqlitedb_TypeList_store (d : Disk) : (sqlitedb.gateway.TypeList d).2 = d := by
  simp only [sqlitedb.gateway, sqlitedb.TypeList]
  split <;> rfl

theorem sqlitedb_Close_files (d : Disk) : (sqlitedb.gateway.Close d).files = d.files := rfl

theorem sqlitedb_Open_ok (p : String) (d : Disk) (t : Table)
    (h : d.files p = some (File.db t)) :
    sqlitedb.gateway.Open p d = (none, { d with handle := some p }) := by
  simp [sqlitedb.gateway, sqlitedb.Open, h]

theorem sqlitedb_Open_fail (p : String) (d : Disk)
    (h : ∀ t, d.files p ≠ some (File.db t)) :
    (sqlitedb.gateway.Open p d).1 ≠ none
      ∧ (sqlitedb.gateway.Open p d).2 = { d with handle := none } := by
  simp only [sqlitedb.gateway, sqlitedb.Open]
  split
  · simp
  · simp
  · rename_i t ht
    exact absurd ht (h t)

theorem foldl_max_le (rows : List BicycleType) (m : Int) :
    m ≤ rows.foldl (fun m r => max m r.Id) m
      ∧ ∀ r ∈ rows, r.Id ≤ rows.foldl (fun m r => max m r.Id) m := by
  induction rows generalizing m with
  | nil => simp
  | cons a rows ih =>
    simp only [List.foldl_cons, List.mem_cons, forall_eq_or_imp]
    refine ⟨le_trans (le_max_left _ _) (ih _).1, le_trans (le_max_right _ _) (ih _).1, ?_⟩
    exact (ih _).2

theorem nextId_gt (t : Table) : t.seq < t.nextId ∧ ∀ r ∈ t.rows, r.Id < t.nextId := by
  unfold Table.nextId
  refine ⟨Int.lt_add_one_iff.mpr (foldl_max_le t.rows t.seq).1, ?_⟩
  intro r hr
  exact Int.lt_add_one_iff.mpr ((foldl_max_le t.rows t.seq).2 r hr)

theorem orderedInsert_append_last (a x : BicycleType) (m : List BicycleType)
    (h : a.Id ≤ x.Id) :
    List.orderedInsert (fun a b : BicycleType => a.Id ≤ b.Id) a (m ++ [x])
      = List.orderedInsert (fun a b : BicycleType => a.Id ≤ b.Id) a m ++ [x] := by
  induction m with
  | nil => simp [List.orderedInsert, h]
  | cons b m ih =>
    by_cases hab : a.Id ≤ b.Id
    · simp [List.orderedInsert, hab]
    · simp [List.orderedInsert, hab, ih]

theorem insertionSort_append_last (x : BicycleType) (l : List BicycleType)
    (h : ∀ a ∈ l, a.Id ≤ x.Id) :
    List.insertionSort (fun a b : BicycleType => a.Id ≤ b.Id) (l ++ [x])
      = List.insertionSort (fun a b : BicycleType => a.Id ≤ b.Id) l ++ [x] := by
  induction l with
  | nil => simp
  | cons a l ih =>
    have h1 : a.Id ≤ x.Id := h a (List.mem_cons_self _ _)
    have h2 : ∀ b ∈ l, b.Id ≤ x.Id := fun b hb => h b (List.mem_cons_of_mem _ hb)
    show List.orderedInsert _ a (List.insertionSort _ (l ++ [x]))
      = List.orderedInsert _ a (List.insertionSort _ l) ++ [x]
    rw [ih h2]
    exact orderedInsert_append_last a x _ h1

theorem stdoutOf_cmdTypeList {σ : Type} (G : Gateway σ) (L : Lib) (c : Context) (s : σ)
    (hf : c.file ≠ "") :
    stdoutOf (cmdTypeList G L c (start s)).log
      = listing L (G.TypeList (G.Open c.file s).2).1.1 := by
  rw [cmdTypeList_run G L c s hf]
  by_cases hl : (G.TypeList (G.Open c.file s).2).1.1 = [] <;>
    simp [listing, hl, fsSeparator]

theorem mem_ordered (t : Table) (r : BicycleType) : r ∈ t.ordered ↔ r ∈ t.rows :=
  (List.perm_insertionSort _ t.rows).mem_iff

theorem setFile_setFile (files : String → Option File) (p : String) (f g : File) :
    Disk.setFile (Disk.setFile files p f) p g = Disk.setFile files p g := by
  funext q
  by_cases h : q = p <;> simp [Disk.setFile, h]

theorem setFile_same (files : String → Option File) (p : String) (f : File) :
    Disk.setFile files p f p = some f := by
  simp [Disk.setFile]

theorem rename_rename (i : Int) (n : String) (rows : List BicycleType) :
    (rows.map fun r : BicycleType => if r.Id = i then { r with Name := n } else r).map
        (fun r : BicycleType => if r.Id = i then { r with Name := n } else r)
      = rows.map fun r : BicycleType => if r.Id = i then { r with Name := n } else r := by
  rw [List.map_map]
  apply List.map_congr_left
  intro r _
  by_cases h : r.Id = i <;> simp [h]

/-- The store after `cmdTypeEdit`, flags accepted, by what `TypeList` and
`GetWithId` return. -/
theorem cmdTypeEdit_store_cases {σ : Type} (G : Gateway σ) (L : Lib) (c : Context) (s : σ)
    (hf : c.file ≠ "") (hi : 0 ≤ c.id) (hn : c.name ≠ "") :
    ((G.TypeList (G.Open c.file s).2).1.2 ≠ none →
      (cmdTypeEdit G L c (start s)).store = G.Close (G.TypeList (G.Open c.file s).2).2)
    ∧ (∀ e, (G.TypeList (G.Open c.file s).2).1.2 = none →
        L.GetWithId (G.TypeList (G.Open c.file s).2).1.1 c.id = Except.error e →
        (cmdTypeEdit G L c (start s)).store = G.Close (G.TypeList (G.Open c.file s).2).2)
    ∧ (∀ r, (G.TypeList (G.Open c.file s).2).1.2 = none →
        L.GetWithId (G.TypeList (G.Open c.file s).2).1.1 c.id = Except.ok r →
        (cmdTypeEdit G L c (start s)).store
          = G.Close (G.TypeUpdate ⟨r.Id, c.name⟩ (G.TypeList (G.Open c.file s).2).2).2) := by
  have hi' : ¬ c.id < 0 := not_lt.mpr hi
  refine ⟨?_, ?_, ?_⟩
  · intro hT
    rcases hT' : (G.TypeList (G.Open c.file s).2).1.2 with _ | te
    · exact absurd hT' hT
    · simp [cmdTypeEdit, hf, hi', hn, World.Open, World.TypeList, World.Close, start, hT']
  · intro e hT hG
    simp [cmdTypeEdit, hf, hi', hn, World.Open, World.TypeList, World.Close, start, hT, hG]
  · intro r hT hG
    rcases hU : (G.TypeUpdate ⟨r.Id, c.name⟩ (G.TypeList (G.Open c.file s).2).2).1
      with _ | ue <;> cases hv : c.verbose <;>
      simp [cmdTypeEdit, hf, hi', hn, World.Open, World.TypeList, World.TypeUpdate,
        World.Close, start, hT, hG, hU, hv]

/-- The store after `cmdTypeEdit` over the reference gateway, flags
accepted: without a data file at the path nothing changes; with one, the
rows with the id are renamed if there are any. -/
theorem cmdTypeEdit_store (c : Context) (d : Disk)
    (hf : c.file ≠ "") (hi : 0 ≤ c.id) (hn : c.name ≠ "") :
    ((∀ t, d.files c.file ≠ some (File.db t)) →
      (cmdTypeEdit sqlitedb.gateway bicycleTypes.lib c (start d)).store = ⟨d.files, none⟩)
    ∧ (∀ t, d.files c.file = some (File.db t) → (∀ r ∈ t.rows, r.Id ≠ c.id) →
      (cmdTypeEdit sqlitedb.gateway bicycleTypes.lib c (start d)).store = ⟨d.files, none⟩)
    ∧ (∀ t, d.files c.file = some (File.db t) → (∃ r ∈ t.rows, r.Id = c.id) →
      (cmdTypeEdit sqlitedb.gateway bicycleTypes.lib c (start d)).store
        = ⟨Disk.setFile d.files c.file (File.db ⟨t.rows.map
            (fun r : BicycleType => if r.Id = c.id then { r with Name := c.name } else r),
            t.seq⟩), none⟩) := by
  have hcases := cmdTypeEdit_store_cases sqlitedb.gateway bicycleTypes.lib c d hf hi hn
  refine ⟨?_, ?_, ?_⟩
  · intro h
    have h2 := (sqlitedb_Open_fail c.file d h).2
    have h3 : (sqlitedb.gateway.TypeList (sqlitedb.gateway.Open c.file d).2).1.2
        = some "StorageError" := by
      rw [h2]
      simp [sqlitedb.gateway, sqlitedb.TypeList, Disk.live]
    rw [hcases.1 (by rw [h3]; simp), sqlitedb_TypeList_store, h2]
    rfl
  · intro t hd hno
    have hO := sqlitedb_Open_ok c.file d t hd
    have hL : sqlitedb.gateway.TypeList ⟨d.files, some c.file⟩
        = ((t.ordered, none), ⟨d.files, some c.file⟩) := by
      simp [sqlitedb.gateway, sqlitedb.TypeList, Disk.live, hd]
    have hfind : t.ordered.find? (fun r => decide (r.Id = c.id)) = none := by
      rw [List.find?_eq_none]
      intro r hr
      simpa using hno r ((mem_ordered t r).mp hr)
    have hG : bicycleTypes.lib.GetWithId t.ordered c.id = Except.error "NotFound" := by
      simp [bicycleTypes.lib, bicycleTypes.GetWithId, hfind]
    rw [hcases.2.1 "NotFound" (by rw [hO, hL]) (by rw [hO, hL]; exact hG), hO, hL]
    rfl
  · intro t hd hex
    obtain ⟨r0, hr0, hr0id⟩ := hex
    have hO := sqlitedb_Open_ok c.file d t hd
    have hL : sqlitedb.gateway.TypeList ⟨d.files, some c.file⟩
        = ((t.ordered, none), ⟨d.files, some c.file⟩) := by
      simp [sqlitedb.gateway, sqlitedb.TypeList, Disk.live, hd]
    have hsome : ∃ r, t.ordered.find? (fun r => decide (r.Id = c.id)) = some r := by
      cases hfind : t.ordered.find? (fun r => decide (r.Id = c.id)) with
      | some r => exact ⟨r, rfl⟩
      | none =>
        rw [List.find?_eq_none] at hfind
        exact absurd (by simpa using hr0id) (hfind r0 ((mem_ordered t r0).mpr hr0))
    obtain ⟨r, hr⟩ := hsome
    have hrid : r.Id = c.id := by simpa using List.find?_some hr
    have hG : bicycleTypes.lib.GetWithId t.ordered c.id = Except.ok r := by
      simp [bicycleTypes.lib, bicycleTypes.GetWithId, hr]
    have hany : (t.rows.any fun x => decide (x.Id = c.id)) = true := by
      rw [List.any_eq_true]
      exact ⟨r0, hr0, by simpa using hr0id⟩
    rw [hcases.2.2 r (by rw [hO, hL]) (by rw [hO, hL]; exact hG), hO, hL]
    simp [sqlitedb.gateway, sqlitedb.TypeUpdate, sqlitedb.Close, Disk.live, hd, hrid, hany]

theorem live_files (d : Disk) (p : String) (t : Table) (h : d.live = some (p, t)) :
    d.files p = some (File.db t) := by
  unfold Disk.live at h
  split at h
  · simp at h
  · rename_i q _
    split at h
    · rename_i t1 ht1
      simp only [Option.some.injEq, Prod.mk.injEq] at h
      rw [← h.1, ← h.2]
      exact ht1
    · simp at h

theorem filter_rename (i j : Int) (n : String) (rows : List BicycleType) (h : i ≠ j) :
    (rows.map fun r : BicycleType => if r.Id = j then { r with Name := n } else r).filter
        (fun r => decide (r.Id = i))
      = rows.filter fun r => decide (r.Id = i) := by
  induction rows with
  | nil => rfl
  | cons a rows ih =>
    by_cases haj : a.Id = j
    · have hji : ¬ j = i := fun hh => h hh.symm
      simp [List.filter_cons, haj, hji, ih]
    · simp [List.filter_cons, haj, ih]

theorem sqlitedb_Open_rowsWithId (p : String) (d : Disk) (i : Int) :
    (sqlitedb.gateway.Open p d).2.rowsWithId i = d.rowsWithId i := by
  funext q
  simp only [Disk.rowsWithId, sqlitedb_Open_files]

theorem sqlitedb_TypeList_rowsWithId (d : Disk) (i : Int) :
    (sqlitedb.gateway.TypeList d).2.rowsWithId i = d.rowsWithId i := by
  rw [sqlitedb_TypeList_store]

theorem sqlitedb_Close_rowsWithId (d : Disk) (i : Int) :
    (sqlitedb.gateway.Close d).rowsWithId i = d.rowsWithId i := rfl

theorem sqlitedb_TypeUpdate_rowsWithId (bt : BicycleType) (d : Disk) (i : Int)
    (h : i ≠ bt.Id) :
    (sqlitedb.gateway.TypeUpdate bt d).2.rowsWithId i = d.rowsWithId i := by
  simp only [sqlitedb.gateway, sqlitedb.TypeUpdate]
  cases hl : d.live with
  | none => rfl
  | some pt =>
    obtain ⟨p, t⟩ := pt
    have hd := live_files d p t hl
    by_cases hany : (t.rows.any fun r => decide (r.Id = bt.Id)) = true
    · simp only [hany, if_true]
      funext q
      by_cases hq : q = p
      · subst hq
        simp [Disk.rowsWithId, Disk.setFile, hd, filter_rename i bt.Id bt.Name t.rows h]
      · simp [Disk.rowsWithId, Disk.setFile, hq]
    · simp only [hany]
      rfl

/-! ## Validation of the flags -/

/-- C2.  `cmdTypeAdd` with an empty name, for every gateway, store, file
path and verbosity: no call on the storage handle, nothing on stdout, one
message on stderr (the missing-file message if the path is empty too,
otherwise the missing-name message), the store is the one it started from,
and so it is after any number of runs. -/
theorem cmdTypeAdd_empty_name_noop {σ : Type} (G : Gateway σ) (file : String) (id : Int)
    (verbose : Bool) (s : σ) (n : Nat) :
    callsOf (cmdTypeAdd G ⟨file, "", id, verbose⟩ (start s)).log = []
    ∧ stdoutOf (cmdTypeAdd G ⟨file, "", id, verbose⟩ (start s)).log = []
    ∧ stderrOf (cmdTypeAdd G ⟨file, "", id, verbose⟩ (start s)).log
        = [if file = "" then errMissingFileFlag else errMissingNameFlag]
    ∧ (cmdTypeAdd G ⟨file, "", id, verbose⟩ (start s)).store = s
    ∧ (fun s => (cmdTypeAdd G ⟨file, "", id, verbose⟩ (start s)).store)^[n] s = s := by
  have h : ∀ s : σ, (cmdTypeAdd G ⟨file, "", id, verbose⟩ (start s)).store = s := by
    intro s
    unfold cmdTypeAdd
    by_cases hf : file = "" <;> simp [hf, start]
  refine ⟨?_, ?_, ?_, h s, ?_⟩
  · unfold cmdTypeAdd
    by_cases hf : file = "" <;> simp [hf, start]
  · unfold cmdTypeAdd
    by_cases hf : file = "" <;> simp [hf, start]
  · unfold cmdTypeAdd
    by_cases hf : file = "" <;> simp [hf, start]
  · induction n with
    | zero => rfl
    | succ k ih => rw [Function.iterate_succ_apply, h, ih]

/-- C10.  `cmdTypeEdit` and `cmdTypeDelete` check the flags in the order
file, id, name (name for edit only).  If a check fails the whole log is one
write to stderr, the message of the first failing check, so nothing goes to
stdout and no call is made on the storage handle, and the store is
untouched.  If all checks pass, which every id from 0 upwards does, the
first event is the call of `Open` with the given path. -/
theorem flags_checked_before_gateway {σ : Type} (G : Gateway σ) (L : Lib) (c : Context)
    (s : σ) :
    (c.file = "" ∨ c.id < 0 ∨ c.name = "" →
      (cmdTypeEdit G L c (start s)).log
          = [Event.write Stream.Stderr
              (if c.file = "" then errMissingFileFlag
               else if c.id < 0 then errMissingIdFlag else errMissingNameFlag)]
        ∧ (cmdTypeEdit G L c (start s)).store = s)
    ∧ (c.file ≠ "" → 0 ≤ c.id → c.name ≠ "" →
        (cmdTypeEdit G L c (start s)).log.head? = some (Event.call (Call.Open c.file)))
    ∧ (c.file = "" ∨ c.id < 0 →
      (cmdTypeDelete G L c (start s)).log
          = [Event.write Stream.Stderr
              (if c.file = "" then errMissingFileFlag else errMissingIdFlag)]
        ∧ (cmdTypeDelete G L c (start s)).store = s)
    ∧ (c.file ≠ "" → 0 ≤ c.id →
        (cmdTypeDelete G L c (start s)).log.head? = some (Event.call (Call.Open c.file))) := by
  refine ⟨?_, ?_, ?_, ?_⟩
  · intro h
    by_cases hf : c.file = ""
    · simp [cmdTypeEdit, hf, start, World.write]
    by_cases hi : c.id < 0
    · simp [cmdTypeEdit, hf, hi, start, World.write]
    have hn : c.name = "" := by tauto
    simp [cmdTypeEdit, hf, hi, hn, start, World.write]
  · intro hf hi hn
    have hi' : ¬ c.id < 0 := not_lt.mpr hi
    rcases hO : G.Open c.file s with ⟨oe, s1⟩
    rcases hT : G.TypeList s1 with ⟨⟨l, te⟩, s2⟩
    rcases hG : L.GetWithId l c.id with e | bt
    · cases te <;>
        simp [cmdTypeEdit, hf, hi', hn, World.Open, World.TypeList,
          World.Close, start, hO, hT, hG]
    · rcases hU : G.TypeUpdate ⟨bt.Id, c.name⟩ s2 with ⟨ue, s3⟩
      cases te <;> cases ue <;> cases hv : c.verbose <;>
        simp [cmdTypeEdit, hf, hi', hn, World.Open, World.TypeList,
          World.TypeUpdate, World.Close, start, hO, hT, hG, hU, hv]
  · intro h
    by_cases hf : c.file = ""
    · simp [cmdTypeDelete, hf, start, World.write]
    have hi : c.id < 0 := by tauto
    simp [cmdTypeDelete, hf, hi, start, World.write]
  · intro hf hi
    have hi' : ¬ c.id < 0 := not_lt.mpr hi
    rcases hO : G.Open c.file s with ⟨oe, s1⟩
    rcases hT : G.TypeList s1 with ⟨⟨l, te⟩, s2⟩
    rcases hG : L.GetWithId l c.id with e | bt
    · cases te <;>
        simp [cmdTypeDelete, hf, hi', World.Open, World.TypeList,
          World.Close, start, hO, hT, hG]
    · rcases hU : G.TypeDelete bt s2 with ⟨ue, s3⟩
      cases te <;> cases ue <;> cases hv : c.verbose <;>
        simp [cmdTypeDelete, hf, hi', World.Open, World.TypeList,
          World.TypeDelete, World.Close, start, hO, hT, hG, hU, hv]

/-- Witness for C10 on the sample store: an empty path, a negative id and
an empty name are each reported by their own message, and id 0 reaches
`Open`. -/
theorem flags_checked_before_gateway_witness :
    (cmdTypeEdit sqlitedb.gateway bicycleTypes.lib ⟨"bikes.db", "Gravel", -1, false⟩
        (start sampleDisk)).log = [Event.write Stream.Stderr errMissingIdFlag]
    ∧ (cmdTypeEdit sqlitedb.gateway bicycleTypes.lib ⟨"bikes.db", "Gravel", 0, false⟩
        (start sampleDisk)).log.head? = some (Event.call (Call.Open "bikes.db"))
    ∧ (cmdTypeDelete sqlitedb.gateway bicycleTypes.lib ⟨"", "", 3, false⟩
        (start sampleDisk)).log = [Event.write Stream.Stderr errMissingFileFlag]
    ∧ (cmdTypeDelete sqlitedb.gateway bicycleTypes.lib ⟨"bikes.db", "", 0, false⟩
        (start sampleDisk)).log.head? = some (Event.call (Call.Open "bikes.db")) :=
  ⟨((flags_checked_before_gateway sqlitedb.gateway bicycleTypes.lib
        ⟨"bikes.db", "Gravel", -1, false⟩ sampleDisk).1 (Or.inr (Or.inl (by decide)))).1,
   (flags_checked_before_gateway sqlitedb.gateway bicycleTypes.lib
        ⟨"bikes.db", "Gravel", 0, false⟩ sampleDisk).2.1 (by decide) (by decide) (by decide),
   ((flags_checked_before_gateway sqlitedb.gateway bicycleTypes.lib
        ⟨"", "", 3, false⟩ sampleDisk).2.2.1 (Or.inl rfl)).1,
   (flags_checked_before_gateway sqlitedb.gateway bicycleTypes.lib
        ⟨"bikes.db", "", 0, false⟩ sampleDisk).2.2.2 (by decide) (by decide)⟩

/-! ## Releasing the handle -/

/-- C4, the claim as stated fails.  On the sample store, `cmdTypeAdd` on a
path with no file calls `Open`, which fails, and returns without calling
`Close`; `cmdInit` on a fresh path calls `CreateNew` and never calls
`Close`. -/
theorem close_not_on_every_path :
    callsOf (cmdTypeAdd sqlitedb.gateway ⟨"missing.db", "Road", -1, false⟩
        (start sampleDisk)).log = [Call.Open "missing.db"]
    ∧ callsOf (cmdInit sqlitedb.gateway ⟨"new.db", "", -1, false⟩
        (start sampleDisk)).log = [Call.CreateNew "new.db"] := by
  constructor
  · simp [cmdTypeAdd, World.Open, start, sqlitedb.gateway, sqlitedb.Open, sampleDisk]
  · simp [cmdInit, World.CreateNew, start, sqlitedb.gateway]

/-- C4, amended.  For every gateway, helpers, flags and store:
`cmdTypeList`, `cmdTypeEdit` and `cmdTypeDelete`, once the flags are
accepted, call `Open` first and `Close` last, and `Close` exactly once,
whatever any call returns; `cmdTypeAdd` does so when `Open` succeeds, and
when `Open` fails its only call is `Open`; `cmdInit` never calls `Close`. -/
theorem close_once_after_open {σ : Type} (G : Gateway σ) (L : Lib) (c : Context) (s : σ) :
    (c.file ≠ "" → ClosedOnceAfterOpen c.file (callsOf (cmdTypeList G L c (start s)).log))
    ∧ (c.file ≠ "" → 0 ≤ c.id → c.name ≠ "" →
        ClosedOnceAfterOpen c.file (callsOf (cmdTypeEdit G L c (start s)).log))
    ∧ (c.file ≠ "" → 0 ≤ c.id →
        ClosedOnceAfterOpen c.file (callsOf (cmdTypeDelete G L c (start s)).log))
    ∧ (c.file ≠ "" → c.name ≠ "" → (G.Open c.file s).1 = none →
        ClosedOnceAfterOpen c.file (callsOf (cmdTypeAdd G c (start s)).log))
    ∧ (c.file ≠ "" → c.name ≠ "" → (G.Open c.file s).1 ≠ none →
        callsOf (cmdTypeAdd G c (start s)).log = [Call.Open c.file])
    ∧ Call.Close ∉ callsOf (cmdInit G c (start s)).log := by
  refine ⟨?_, ?_, ?_, ?_, ?_, ?_⟩
  · intro hf
    rw [cmdTypeList_run G L c s hf]
    simp [ClosedOnceAfterOpen]
  · intro hf hi hn
    have hi' : ¬ c.id < 0 := not_lt.mpr hi
    rcases hO : G.Open c.file s with ⟨oe, s1⟩
    rcases hT : G.TypeList s1 with ⟨⟨l, te⟩, s2⟩
    rcases hG : L.GetWithId l c.id with e | bt
    · cases te <;>
        simp [cmdTypeEdit, ClosedOnceAfterOpen, hf, hi', hn, World.Open, World.TypeList,
          World.Close, start, hO, hT, hG]
    · rcases hU : G.TypeUpdate ⟨bt.Id, c.name⟩ s2 with ⟨ue, s3⟩
      cases te <;> cases ue <;> cases hv : c.verbose <;>
        simp [cmdTypeEdit, ClosedOnceAfterOpen, hf, hi', hn, World.Open, World.TypeList,
          World.TypeUpdate, World.Close, start, hO, hT, hG, hU, hv]
  · intro hf hi
    have hi' : ¬ c.id < 0 := not_lt.mpr hi
    rcases hO : G.Open c.file s with ⟨oe, s1⟩
    rcases hT : G.TypeList s1 with ⟨⟨l, te⟩, s2⟩
    rcases hG : L.GetWithId l c.id with e | bt
    · cases te <;>
        simp [cmdTypeDelete, ClosedOnceAfterOpen, hf, hi', World.Open, World.TypeList,
          World.Close, start, hO, hT, hG]
    · rcases hU : G.TypeDelete bt s2 with ⟨ue, s3⟩
      cases te <;> cases ue <;> cases hv : c.verbose <;>
        simp [cmdTypeDelete, ClosedOnceAfterOpen, hf, hi', World.Open, World.TypeList,
          World.TypeDelete, World.Close, start, hO, hT, hG, hU, hv]
  · intro hf hn hO
    rcases hA : G.TypeAdd ⟨0, c.name⟩ (G.Open c.file s).2 with ⟨ae, s2⟩
    cases ae <;> cases hv : c.verbose <;>
      simp [cmdTypeAdd, ClosedOnceAfterOpen, hf, hn, World.Open, World.TypeAdd, World.Close,
        start, hO, hA, hv]
  · intro hf hn hO
    rcases hO' : (G.Open c.file s).1 with _ | e
    · exact absurd hO' hO
    · simp [cmdTypeAdd, hf, hn, World.Open, start, hO']
  · by_cases hf : c.file = "" <;> cases hv : c.verbose <;>
      simp [cmdInit, hf, World.CreateNew, start, hv]

/-- Witness for C4 (amended) on the sample store. -/
theorem close_once_after_open_witness :
    ClosedOnceAfterOpen "bikes.db"
      (callsOf (cmdTypeList sqlitedb.gateway bicycleTypes.lib ⟨"bikes.db", "Gravel", 1, true⟩
        (start sampleDisk)).log)
    ∧ ClosedOnceAfterOpen "bikes.db"
      (callsOf (cmdTypeEdit sqlitedb.gateway bicycleTypes.lib ⟨"bikes.db", "Gravel", 1, true⟩
        (start sampleDisk)).log)
    ∧ ClosedOnceAfterOpen "bikes.db"
      (callsOf (cmdTypeDelete sqlitedb.gateway bicycleTypes.lib ⟨"bikes.db", "Gravel", 1, true⟩
        (start sampleDisk)).log)
    ∧ ClosedOnceAfterOpen "bikes.db"
      (callsOf (cmdTypeAdd sqlitedb.gateway ⟨"bikes.db", "Gravel", 1, true⟩
        (start sampleDisk)).log)
    ∧ callsOf (cmdTypeAdd sqlitedb.gateway ⟨"notes.txt", "Gravel", 1, true⟩
        (start sampleDisk)).log = [Call.Open "notes.txt"] := by
  have h := close_once_after_open sqlitedb.gateway bicycleTypes.lib
    ⟨"bikes.db", "Gravel", 1, true⟩ sampleDisk
  have h2 := close_once_after_open sqlitedb.gateway bicycleTypes.lib
    ⟨"notes.txt", "Gravel", 1, true⟩ sampleDisk
  refine ⟨h.1 (by decide), h.2.1 (by decide) (by decide) (by decide),
    h.2.2.1 (by decide) (by decide), h.2.2.2.1 (by decide) (by decide) ?_,
    h2.2.2.2.2.1 (by decide) (by decide) ?_⟩
  · simp [sqlitedb.gateway, sqlitedb.Open, sampleDisk]
  · simp [sqlitedb.gateway, sqlitedb.Open, sampleDisk]

/-! ## Failures of the gateway -/

/-- C3, the code at failing inputs on the sample store.  `init --verbose` on
a path where a file exists: `CreateNew` fails, the error goes to stderr, and
the success summary is still written to stdout.  `list` on a path with no
file: `Open` fails, yet `TypeList` is called, and after its failure the
message for an empty list is written to stdout.  `edit` and `delete` on a
path with no file: `Open` fails, yet `TypeList` is called. -/
theorem gateway_failure_not_terminal :
    (cmdInit sqlitedb.gateway ⟨"bikes.db", "", -1, true⟩ (start sampleDisk)).log
      = [Event.call (Call.CreateNew "bikes.db"),
         Event.write Stream.Stderr "AlreadyExists",
         Event.write Stream.Stdout "gBicLog: created file bikes.db.\n"]
    ∧ (cmdTypeList sqlitedb.gateway bicycleTypes.lib ⟨"missing.db", "", -1, false⟩
        (start sampleDisk)).log
      = [Event.call (Call.Open "missing.db"),
         Event.write Stream.Stderr "NotFound",
         Event.call Call.TypeList,
         Event.write Stream.Stderr "StorageError",
         Event.write Stream.Stdout "gBicLog: no bicycle types.",
         Event.call Call.Close]
    ∧ (cmdTypeEdit sqlitedb.gateway bicycleTypes.lib ⟨"missing.db", "Gravel", 1, false⟩
        (start sampleDisk)).log
      = [Event.call (Call.Open "missing.db"),
         Event.write Stream.Stderr "NotFound",
         Event.call Call.TypeList,
         Event.write Stream.Stderr "StorageError",
         Event.call Call.Close]
    ∧ (cmdTypeDelete sqlitedb.gateway bicycleTypes.lib ⟨"missing.db", "", 1, false⟩
        (start sampleDisk)).log
      = [Event.call (Call.Open "missing.db"),
         Event.write Stream.Stderr "NotFound",
         Event.call Call.TypeList,
         Event.write Stream.Stderr "StorageError",
         Event.call Call.Close] := by
  refine ⟨?_, ?_, ?_, ?_⟩
  · simp [cmdInit, World.CreateNew, World.report, World.write, start, sqlitedb.gateway,
      sqlitedb.CreateNew, sampleDisk]
  · simp [cmdTypeList, World.Open, World.TypeList, World.Close, World.report, World.write,
      start, sqlitedb.gateway, sqlitedb.Open, sqlitedb.TypeList, Disk.live, sampleDisk]
  · simp [cmdTypeEdit, World.Open, World.TypeList, World.Close, World.report, World.write,
      start, sqlitedb.gateway, sqlitedb.Open, sqlitedb.TypeList, Disk.live, sampleDisk]
  · simp [cmdTypeDelete, World.Open, World.TypeList, World.Close, World.report, World.write,
      start, sqlitedb.gateway, sqlitedb.Open, sqlitedb.TypeList, Disk.live, sampleDisk]

/-! ## Listing -/

/-- C9.  For every gateway, helpers, flags with a non-empty path and store
such that `TypeList` returns the list `l` without error: stderr holds only
what `Open` reported, so nothing when `Open` succeeded; if `l` is empty,
stdout holds only the text `gBicLog: no bicycle types.`; otherwise stdout
holds `l.length + 1` lines, the header (the id header and the name header of
`GetDisplayStrings`, each followed by the two-space separator, then a line
feed) and then one row per record of `l`, in the order of `l`, made from the
row template with that record's `Id` and `Name`. -/
theorem cmdTypeList_output {σ : Type} (G : Gateway σ) (L : Lib) (c : Context) (s : σ)
    (l : BicycleTypes) (hf : c.file ≠ "")
    (hT : (G.TypeList (G.Open c.file s).2).1 = (l, none)) :
    stderrOf (cmdTypeList G L c (start s)).log = Error.messages (G.Open c.file s).1
    ∧ ((G.Open c.file s).1 = none → stderrOf (cmdTypeList G L c (start s)).log = [])
    ∧ (l = [] →
        stdoutOf (cmdTypeList G L c (start s)).log = ["gBicLog: no bicycle types."])
    ∧ (l ≠ [] →
        stdoutOf (cmdTypeList G L c (start s)).log
          = L.Sprintf ((L.GetDisplayStrings l).1 ++ fsSeparator ++ (L.GetDisplayStrings l).2.1
                ++ fsSeparator ++ "\n") []
            :: l.map (fun t =>
                L.Sprintf ((L.GetDisplayStrings l).2.2.1 ++ fsSeparator
                    ++ (L.GetDisplayStrings l).2.2.2 ++ fsSeparator ++ "\n")
                  [Arg.int t.Id, Arg.str t.Name])
        ∧ (stdoutOf (cmdTypeList G L c (start s)).log).length = l.length + 1) := by
  rw [cmdTypeList_run G L c s hf, hT]
  refine ⟨?_, ?_, ?_, ?_⟩
  · simp [Error.messages]
  · intro hO
    simp [Error.messages, hO]
  · intro hl
    simp [Error.messages, hl]
  · intro hl
    simp [Error.messages, hl, fsSeparator]

/-- Witness for C9 on the sample store: listing `bikes.db`. -/
theorem cmdTypeList_output_witness :
    (sqlitedb.gateway.TypeList (sqlitedb.gateway.Open "bikes.db" sampleDisk).2).1
      = ([⟨1, "Road"⟩, ⟨2, "MTB"⟩], none)
    ∧ stderrOf (cmdTypeList sqlitedb.gateway bicycleTypes.lib ⟨"bikes.db", "", -1, false⟩
        (start sampleDisk)).log = []
    ∧ (stdoutOf (cmdTypeList sqlitedb.gateway bicycleTypes.lib ⟨"bikes.db", "", -1, false⟩
        (start sampleDisk)).log).length = 3 := by
  have hT : (sqlitedb.gateway.TypeList (sqlitedb.gateway.Open "bikes.db" sampleDisk).2).1
      = ([⟨1, "Road"⟩, ⟨2, "MTB"⟩], none) := by
    simp [sqlitedb.gateway, sqlitedb.Open, sqlitedb.TypeList, Disk.live, sampleDisk,
      Table.ordered]
  have h := cmdTypeList_output sqlitedb.gateway bicycleTypes.lib
    ⟨"bikes.db", "", -1, false⟩ sampleDisk [⟨1, "Road"⟩, ⟨2, "MTB"⟩] (by decide) hT
  refine ⟨hT, h.2.1 ?_, (h.2.2.2 (by simp)).2⟩
  simp [sqlitedb.gateway, sqlitedb.Open, sampleDisk]

/-! ## Edit and delete by id -/

/-- C1.  For every gateway, helpers, flags with id at least 0 and store such
that `GetWithId` fails with `e` on the list `TypeList` returns: both
`cmdTypeEdit` and `cmdTypeDelete` write nothing to stdout, write to stderr,
and make no call that can change rows (no `TypeUpdate`, no `TypeDelete`);
whatever `Open`, `TypeList` and `Close` leave unchanged in the store
(`content`) is the same after the command as before; and when the flags are
accepted and `TypeList` returned no error, the log is exactly: `Open`, what
`Open` reported, `TypeList`, `e` on stderr, `Close`. -/
theorem lookup_failure_leaves_store {σ κ : Type} (G : Gateway σ) (L : Lib)
    (content : σ → κ)
    (hOpen : ∀ p s, content (G.Open p s).2 = content s)
    (hList : ∀ s, content (G.TypeList s).2 = content s)
    (hClose : ∀ s, content (G.Close s) = content s)
    (c : Context) (s : σ) (e : String) (hi : 0 ≤ c.id)
    (hG : L.GetWithId (G.TypeList (G.Open c.file s).2).1.1 c.id = Except.error e) :
    (stdoutOf (cmdTypeEdit G L c (start s)).log = []
      ∧ stderrOf (cmdTypeEdit G L c (start s)).log ≠ []
      ∧ (∀ k ∈ callsOf (cmdTypeEdit G L c (start s)).log, k.mutating = false)
      ∧ content (cmdTypeEdit G L c (start s)).store = content s
      ∧ (c.file ≠ "" → c.name ≠ "" → (G.TypeList (G.Open c.file s).2).1.2 = none →
          (cmdTypeEdit G L c (start s)).log
            = Event.call (Call.Open c.file)
              :: ((Error.messages (G.Open c.file s).1).map (Event.write Stream.Stderr)
              ++ [Event.call Call.TypeList, Event.write Stream.Stderr e,
                  Event.call Call.Close])))
    ∧ (stdoutOf (cmdTypeDelete G L c (start s)).log = []
      ∧ stderrOf (cmdTypeDelete G L c (start s)).log ≠ []
      ∧ (∀ k ∈ callsOf (cmdTypeDelete G L c (start s)).log, k.mutating = false)
      ∧ content (cmdTypeDelete G L c (start s)).store = content s
      ∧ (c.file ≠ "" → (G.TypeList (G.Open c.file s).2).1.2 = none →
          (cmdTypeDelete G L c (start s)).log
            = Event.call (Call.Open c.file)
              :: ((Error.messages (G.Open c.file s).1).map (Event.write Stream.Stderr)
              ++ [Event.call Call.TypeList, Event.write Stream.Stderr e,
                  Event.call Call.Close]))) := by
  have hi' : ¬ c.id < 0 := not_lt.mpr hi
  have hc : content (G.Close (G.TypeList (G.Open c.file s).2).2) = content s := by
    rw [hClose, hList, hOpen]
  constructor
  · by_cases hf : c.file = ""
    · simp [cmdTypeEdit, hf, start]
    by_cases hn : c.name = ""
    · simp [cmdTypeEdit, hf, hi', hn, start]
    rcases hT : (G.TypeList (G.Open c.file s).2).1.2 with _ | te
    · simp [cmdTypeEdit, hf, hi', hn, World.Open, World.TypeList, World.Close, start, hT,
        hG, hc, Call.mutating]
    · simp [cmdTypeEdit, hf, hi', hn, World.Open, World.TypeList, World.Close, start, hT,
        hc, Call.mutating]
  · by_cases hf : c.file = ""
    · simp [cmdTypeDelete, hf, start]
    rcases hT : (G.TypeList (G.Open c.file s).2).1.2 with _ | te
    · simp [cmdTypeDelete, hf, hi', World.Open, World.TypeList, World.Close, start, hT,
        hG, hc, Call.mutating]
    · simp [cmdTypeDelete, hf, hi', World.Open, World.TypeList, World.Close, start, hT,
        hc, Call.mutating]

/-- C5.  For every gateway, helpers, accepted flags and store such that
`TypeList` returns the list `l` without error and `GetWithId l id` returns
the record `r`: the calls of `cmdTypeEdit` are exactly `Open`, `TypeList`,
`TypeUpdate` with the record of id `r.Id` and the new name, `Close`; so
whatever `Open`, `TypeList`, `Close` leave unchanged and `TypeUpdate` leaves
unchanged for ids other than the record's (`view`) is, for every id other
than `r.Id`, the same after the command as before; and if `verbose` is set
and `TypeUpdate` succeeds, stdout holds exactly the summary with `r.Name` as
the old name and the new name. -/
theorem cmdTypeEdit_updates_one_record {σ κ : Type} (G : Gateway σ) (L : Lib)
    (view : σ → Int → κ)
    (hOpen : ∀ p s i, view (G.Open p s).2 i = view s i)
    (hList : ∀ s i, view (G.TypeList s).2 i = view s i)
    (hClose : ∀ s i, view (G.Close s) i = view s i)
    (hUpdate : ∀ bt s i, i ≠ bt.Id → view (G.TypeUpdate bt s).2 i = view s i)
    (c : Context) (s : σ) (l : BicycleTypes) (r : BicycleType)
    (hf : c.file ≠ "") (hi : 0 ≤ c.id) (hn : c.name ≠ "")
    (hT : (G.TypeList (G.Open c.file s).2).1 = (l, none))
    (hG : L.GetWithId l c.id = Except.ok r) :
    callsOf (cmdTypeEdit G L c (start s)).log
      = [Call.Open c.file, Call.TypeList, Call.TypeUpdate ⟨r.Id, c.name⟩, Call.Close]
    ∧ (∀ i, i ≠ r.Id → view (cmdTypeEdit G L c (start s)).store i = view s i)
    ∧ (c.verbose = true →
        (G.TypeUpdate ⟨r.Id, c.name⟩ (G.TypeList (G.Open c.file s).2).2).1 = none →
        stdoutOf (cmdTypeEdit G L c (start s)).log
          = ["gBicLog: change bicycle type name from " ++ r.Name ++ " to " ++ c.name
              ++ ".\n"]) := by
  have hi' : ¬ c.id < 0 := not_lt.mpr hi
  have hT1 : (G.TypeList (G.Open c.file s).2).1.1 = l := by rw [hT]
  have hT2 : (G.TypeList (G.Open c.file s).2).1.2 = none := by rw [hT]
  have hv : ∀ i, i ≠ r.Id →
      view (G.Close (G.TypeUpdate ⟨r.Id, c.name⟩ (G.TypeList (G.Open c.file s).2).2).2) i
        = view s i := by
    intro i hne
    rw [hClose, hUpdate ⟨r.Id, c.name⟩ _ i hne, hList, hOpen]
  rcases hU : (G.TypeUpdate ⟨r.Id, c.name⟩ (G.TypeList (G.Open c.file s).2).2).1 with _ | ue
  · cases hb : c.verbose
    · refine ⟨?_, ?_, ?_⟩
      · simp [cmdTypeEdit, hf, hi', hn, World.Open, World.TypeList, World.TypeUpdate,
          World.Close, start, hT1, hT2, hG, hU, hb]
      · intro i hne
        simpa [cmdTypeEdit, hf, hi', hn, World.Open, World.TypeList, World.TypeUpdate,
          World.Close, start, hT1, hT2, hG, hU, hb] using hv i hne
      · intro h
        simp at h
    · refine ⟨?_, ?_, ?_⟩
      · simp [cmdTypeEdit, hf, hi', hn, World.Open, World.TypeList, World.TypeUpdate,
          World.Close, start, hT1, hT2, hG, hU, hb]
      · intro i hne
        simpa [cmdTypeEdit, hf, hi', hn, World.Open, World.TypeList, World.TypeUpdate,
          World.Close, start, hT1, hT2, hG, hU, hb] using hv i hne
      · intro _ _
        simp [cmdTypeEdit, hf, hi', hn, World.Open, World.TypeList, World.TypeUpdate,
          World.Close, start, hT1, hT2, hG, hU, hb]
  · refine ⟨?_, ?_, ?_⟩
    · simp [cmdTypeEdit, hf, hi', hn, World.Open, World.TypeList, World.TypeUpdate,
        World.Close, start, hT1, hT2, hG, hU]
    · intro i hne
      simpa [cmdTypeEdit, hf, hi', hn, World.Open, World.TypeList, World.TypeUpdate,
        World.Close, start, hT1, hT2, hG, hU] using hv i hne
    · intro _ h
      simp at h

/-- Witness for C1 on the sample store: no row of `bikes.db` has id 7. -/
theorem lookup_failure_leaves_store_witness :
    bicycleTypes.lib.GetWithId
        (sqlitedb.gateway.TypeList (sqlitedb.gateway.Open "bikes.db" sampleDisk).2).1.1 7
      = Except.error "NotFound"
    ∧ stdoutOf (cmdTypeEdit sqlitedb.gateway bicycleTypes.lib ⟨"bikes.db", "Gravel", 7, true⟩
        (start sampleDisk)).log = []
    ∧ (cmdTypeEdit sqlitedb.gateway bicycleTypes.lib ⟨"bikes.db", "Gravel", 7, true⟩
        (start sampleDisk)).store.files = sampleDisk.files
    ∧ (cmdTypeDelete sqlitedb.gateway bicycleTypes.lib ⟨"bikes.db", "Gravel", 7, true⟩
        (start sampleDisk)).store.files = sampleDisk.files := by
  have hG : bicycleTypes.lib.GetWithId
      (sqlitedb.gateway.TypeList (sqlitedb.gateway.Open "bikes.db" sampleDisk).2).1.1 7
        = Except.error "NotFound" := by
    simp [sqlitedb.gateway, sqlitedb.Open, sqlitedb.TypeList, Disk.live, sampleDisk,
      Table.ordered, bicycleTypes.lib, bicycleTypes.GetWithId]
  have h := lookup_failure_leaves_store sqlitedb.gateway bicycleTypes.lib Disk.files
    sqlitedb_Open_files (fun s => by rw [sqlitedb_TypeList_store]) sqlitedb_Close_files
    ⟨"bikes.db", "Gravel", 7, true⟩ sampleDisk "NotFound" (by decide) hG
  exact ⟨hG, h.1.1, h.1.2.2.2.1, h.2.2.2.2.1⟩

/-- Witness for C5 on the sample store: editing id 1 of `bikes.db`. -/
theorem cmdTypeEdit_updates_one_record_witness :
    callsOf (cmdTypeEdit sqlitedb.gateway bicycleTypes.lib ⟨"bikes.db", "Gravel", 1, true⟩
        (start sampleDisk)).log
      = [Call.Open "bikes.db", Call.TypeList, Call.TypeUpdate ⟨1, "Gravel"⟩, Call.Close]
    ∧ (cmdTypeEdit sqlitedb.gateway bicycleTypes.lib ⟨"bikes.db", "Gravel", 1, true⟩
        (start sampleDisk)).store.rowsWithId 2 = sampleDisk.rowsWithId 2 := by
  have hT : (sqlitedb.gateway.TypeList (sqlitedb.gateway.Open "bikes.db" sampleDisk).2).1
      = ([⟨1, "Road"⟩, ⟨2, "MTB"⟩], none) := by
    simp [sqlitedb.gateway, sqlitedb.Open, sqlitedb.TypeList, Disk.live, sampleDisk,
      Table.ordered]
  have hG : bicycleTypes.lib.GetWithId [⟨1, "Road"⟩, ⟨2, "MTB"⟩] 1 = Except.ok ⟨1, "Road"⟩ := by
    simp [bicycleTypes.lib, bicycleTypes.GetWithId]
  have h := cmdTypeEdit_updates_one_record sqlitedb.gateway bicycleTypes.lib Disk.rowsWithId
    sqlitedb_Open_rowsWithId sqlitedb_TypeList_rowsWithId sqlitedb_Close_rowsWithId
    sqlitedb_TypeUpdate_rowsWithId ⟨"bikes.db", "Gravel", 1, true⟩ sampleDisk
    [⟨1, "Road"⟩, ⟨2, "MTB"⟩] ⟨1, "Road"⟩ (by decide) (by decide) (by decide) hT hG
  exact ⟨h.1, h.2.1 2 (by decide)⟩

/-! ## Adding a type -/

/-- C6.  Over the reference gateway, for every helpers, store and flags with
a non-empty name and the path of a data file holding the table `t`:
`cmdTypeAdd` makes exactly the calls `Open`, `TypeAdd` with the record of id
0 and the given name, `Close` (and so it does over every gateway whose `Open`
succeeds), and reports no error; `cmdTypeList` run after it shows what
`cmdTypeList` showed before it with exactly one more record, last in the
list, whose name is the given name and whose id `t.nextId` is greater than
the largest id assigned so far and than the id of every row present. -/
theorem typeAdd_then_typeList (L : Lib) (d : Disk) (c : Context) (t : Table)
    (hf : c.file ≠ "") (hn : c.name ≠ "") (hd : d.files c.file = some (File.db t)) :
    (∀ (σ : Type) (G : Gateway σ) (s : σ), (G.Open c.file s).1 = none →
      callsOf (cmdTypeAdd G c (start s)).log
        = [Call.Open c.file, Call.TypeAdd ⟨0, c.name⟩, Call.Close])
    ∧ callsOf (cmdTypeAdd sqlitedb.gateway c (start d)).log
        = [Call.Open c.file, Call.TypeAdd ⟨0, c.name⟩, Call.Close]
    ∧ stderrOf (cmdTypeAdd sqlitedb.gateway c (start d)).log = []
    ∧ stdoutOf (cmdTypeList sqlitedb.gateway L c (start d)).log = listing L t.ordered
    ∧ stdoutOf (cmdTypeList sqlitedb.gateway L c
          (start (cmdTypeAdd sqlitedb.gateway c (start d)).store)).log
        = listing L (t.ordered ++ [⟨t.nextId, c.name⟩])
    ∧ t.seq < t.nextId ∧ (∀ r ∈ t.rows, r.Id < t.nextId) := by
  have hgen : ∀ (σ : Type) (G : Gateway σ) (s : σ), (G.Open c.file s).1 = none →
      callsOf (cmdTypeAdd G c (start s)).log
        = [Call.Open c.file, Call.TypeAdd ⟨0, c.name⟩, Call.Close] := by
    intro σ G s hO
    rcases hA : (G.TypeAdd ⟨0, c.name⟩ (G.Open c.file s).2).1 with _ | ae <;>
      cases hv : c.verbose <;>
      simp [cmdTypeAdd, hf, hn, World.Open, World.TypeAdd, World.Close, start, hO, hA, hv]
  have hO := sqlitedb_Open_ok c.file d t hd
  have hstore : (cmdTypeAdd sqlitedb.gateway c (start d)).store
      = ⟨Disk.setFile d.files c.file (File.db ⟨t.rows ++ [⟨t.nextId, c.name⟩], t.nextId⟩),
          none⟩ := by
    cases hv : c.verbose <;>
      simp [cmdTypeAdd, hf, hn, World.Open, World.TypeAdd, World.Close, start, hv,
        sqlitedb.gateway, sqlitedb.Open, sqlitedb.TypeAdd, sqlitedb.Close, Disk.live, hd]
  have hsorted : Table.ordered ⟨t.rows ++ [⟨t.nextId, c.name⟩], t.nextId⟩
      = t.ordered ++ [⟨t.nextId, c.name⟩] := by
    unfold Table.ordered
    exact insertionSort_append_last _ _ fun a ha => le_of_lt ((nextId_gt t).2 a ha)
  refine ⟨hgen, hgen Disk sqlitedb.gateway d (by rw [hO]), ?_, ?_, ?_, (nextId_gt t).1,
    (nextId_gt t).2⟩
  · cases hv : c.verbose <;>
      simp [cmdTypeAdd, hf, hn, World.Open, World.TypeAdd, World.Close, start, hv,
        sqlitedb.gateway, sqlitedb.Open, sqlitedb.TypeAdd, Disk.live, hd]
  · rw [stdoutOf_cmdTypeList _ L c d hf, hO]
    simp [sqlitedb.gateway, sqlitedb.TypeList, Disk.live, hd]
  · rw [stdoutOf_cmdTypeList _ L c _ hf, hstore]
    simp [sqlitedb.gateway, sqlitedb.Open, sqlitedb.TypeList, Disk.live, Disk.setFile,
      hsorted]

/-- Witness for C6 on the sample store: adding `Gravel` to `bikes.db`. -/
theorem typeAdd_then_typeList_witness :
    sampleDisk.files "bikes.db" = some (File.db ⟨[⟨1, "Road"⟩, ⟨2, "MTB"⟩], 2⟩)
    ∧ stdoutOf (cmdTypeList sqlitedb.gateway bicycleTypes.lib ⟨"bikes.db", "Gravel", -1, false⟩
          (start (cmdTypeAdd sqlitedb.gateway ⟨"bikes.db", "Gravel", -1, false⟩
            (start sampleDisk)).store)).log
        = listing bicycleTypes.lib
            (Table.ordered ⟨[⟨1, "Road"⟩, ⟨2, "MTB"⟩], 2⟩
              ++ [⟨Table.nextId ⟨[⟨1, "Road"⟩, ⟨2, "MTB"⟩], 2⟩, "Gravel"⟩]) := by
  have hd : sampleDisk.files "bikes.db" = some (File.db ⟨[⟨1, "Road"⟩, ⟨2, "MTB"⟩], 2⟩) := by
    simp [sampleDisk]
  exact ⟨hd, (typeAdd_then_typeList bicycleTypes.lib sampleDisk
    ⟨"bikes.db", "Gravel", -1, false⟩ ⟨[⟨1, "Road"⟩, ⟨2, "MTB"⟩], 2⟩
    (by decide) (by decide) hd).2.2.2.2.1⟩

/-! ## Editing twice -/

/-- C7.  Over the reference gateway and helpers, for every flags and store:
the store after running `cmdTypeEdit` twice with the same flags is the store
after running it once. -/
theorem typeEdit_idempotent (c : Context) (d : Disk) :
    (cmdTypeEdit sqlitedb.gateway bicycleTypes.lib c
        (start (cmdTypeEdit sqlitedb.gateway bicycleTypes.lib c (start d)).store)).store
      = (cmdTypeEdit sqlitedb.gateway bicycleTypes.lib c (start d)).store := by
  by_cases hf : c.file = ""
  · simp [cmdTypeEdit, hf, start]
  by_cases hi' : c.id < 0
  · simp [cmdTypeEdit, hf, hi', start]
  by_cases hn : c.name = ""
  · simp [cmdTypeEdit, hf, hi', hn, start]
  have hi : 0 ≤ c.id := not_lt.mp hi'
  by_cases hdb : ∃ t, d.files c.file = some (File.db t)
  · obtain ⟨t, hd⟩ := hdb
    by_cases hex : ∃ r ∈ t.rows, r.Id = c.id
    · rw [(cmdTypeEdit_store c d hf hi hn).2.2 t hd hex]
      have hex2 : ∃ r ∈ t.rows.map
          (fun r : BicycleType => if r.Id = c.id then { r with Name := c.name } else r),
          r.Id = c.id := by
        obtain ⟨r0, hr0, hr0id⟩ := hex
        refine ⟨{ r0 with Name := c.name }, ?_, hr0id⟩
        rw [List.mem_map]
        exact ⟨r0, hr0, by simp [hr0id]⟩
      rw [(cmdTypeEdit_store c _ hf hi hn).2.2 _ (setFile_same _ _ _) hex2]
      simp only [setFile_setFile, rename_rename]
    · have hno : ∀ r ∈ t.rows, r.Id ≠ c.id := by
        intro r hr h
        exact hex ⟨r, hr, h⟩
      rw [(cmdTypeEdit_store c d hf hi hn).2.1 t hd hno]
      exact (cmdTypeEdit_store c _ hf hi hn).2.1 t hd hno
  · have hno : ∀ t, d.files c.file ≠ some (File.db t) := by
      intro t h
      exact hdb ⟨t, h⟩
    rw [(cmdTypeEdit_store c d hf hi hn).1 hno]
    exact (cmdTypeEdit_store c _ hf hi hn).1 hno

/-! ## Verbosity -/

/-- C8.  For every gateway, helpers, flags and store, and each of the five
handlers: the run with `verbose` set and the run with `verbose` unset make
the same calls on the storage handle with the same arguments, end in the same
store and write the same text to stderr; their stdout differs at most by one
final summary line, present only in the verbose run (for `cmdTypeList` the
two logs are equal). -/
theorem verbose_only_adds_summary {σ : Type} (G : Gateway σ) (L : Lib) (c : Context) (s : σ) :
    SameButSummary (cmdInit G { c with verbose := true } (start s))
        (cmdInit G { c with verbose := false } (start s))
    ∧ SameButSummary (cmdTypeAdd G { c with verbose := true } (start s))
        (cmdTypeAdd G { c with verbose := false } (start s))
    ∧ cmdTypeList G L { c with verbose := true } (start s)
        = cmdTypeList G L { c with verbose := false } (start s)
    ∧ SameButSummary (cmdTypeEdit G L { c with verbose := true } (start s))
        (cmdTypeEdit G L { c with verbose := false } (start s))
    ∧ SameButSummary (cmdTypeDelete G L { c with verbose := true } (start s))
        (cmdTypeDelete G L { c with verbose := false } (start s)) := by
  refine ⟨?_, ?_, ?_, ?_, ?_⟩
  · unfold cmdInit SameButSummary
    by_cases hf : c.file = "" <;> simp [hf, World.CreateNew, start]
  · by_cases hf : c.file = ""
    · simp [cmdTypeAdd, SameButSummary, hf]
    by_cases hn : c.name = ""
    · simp [cmdTypeAdd, SameButSummary, hf, hn]
    rcases hO : G.Open c.file s with ⟨oe, s1⟩
    rcases hA : G.TypeAdd ⟨0, c.name⟩ s1 with ⟨ae, s2⟩
    cases oe <;> cases ae <;>
      simp [cmdTypeAdd, SameButSummary, hf, hn, World.Open, World.TypeAdd, World.Close,
        start, hO, hA]
  · rfl
  · by_cases hf : c.file = ""
    · simp [cmdTypeEdit, SameButSummary, hf]
    by_cases hi : c.id < 0
    · simp [cmdTypeEdit, SameButSummary, hf, hi]
    by_cases hn : c.name = ""
    · simp [cmdTypeEdit, SameButSummary, hf, hi, hn]
    rcases hO : G.Open c.file s with ⟨oe, s1⟩
    rcases hT : G.TypeList s1 with ⟨⟨l, te⟩, s2⟩
    rcases hG : L.GetWithId l c.id with e | bt
    · cases te <;>
        simp [cmdTypeEdit, SameButSummary, hf, hi, hn, World.Open, World.TypeList,
          World.Close, start, hO, hT, hG]
    · rcases hU : G.TypeUpdate ⟨bt.Id, c.name⟩ s2 with ⟨ue, s3⟩
      cases te <;> cases ue <;>
        simp [cmdTypeEdit, SameButSummary, hf, hi, hn, World.Open, World.TypeList,
          World.TypeUpdate, World.Close, start, hO, hT, hG, hU]
  · by_cases hf : c.file = ""
    · simp [cmdTypeDelete, SameButSummary, hf]
    by_cases hi : c.id < 0
    · simp [cmdTypeDelete, SameButSummary, hf, hi]
    rcases hO : G.Open c.file s with ⟨oe, s1⟩
    rcases hT : G.TypeList s1 with ⟨⟨l, te⟩, s2⟩
    rcases hG : L.GetWithId l c.id with e | bt
    · cases te <;>
        simp [cmdTypeDelete, SameButSummary, hf, hi, World.Open, World.TypeList,
          World.Close, start, hO, hT, hG]
    · rcases hU : G.TypeDelete bt s2 with ⟨ue, s3⟩
      cases te <;> cases ue <;>
        simp [cmdTypeDelete, SameButSummary, hf, hi, World.Open, World.TypeList,
          World.TypeDelete, World.Close, start, hO, hT, hG, hU]

end Gbiclog
